import Mathlib

/-!
Shallow embedding of the core of the `opticat` repository: the attribute
access layer over immutable game state (`src/src/common/range.ts`,
`src/src/game/attribute/bound.ts`, `src/src/game/game.ts`, and the
attribute / actor modules), together with theorems settling the frozen
claims about it.

Errors are plain data (`fp-ts` `Either` becomes `Except`), records become
structures, and the `@fp-ts/optic` `Optional` (an external dependency of
the code) is modelled as a pair of get/set functions whose errors carry a
message and the subject, matching how the attribute layer consumes it.
-/

namespace Opticat

/-- `E.ap` of fp-ts `Either`: a failing function side wins, then a failing
argument side, else apply. -/
def exceptAp {ε α β : Type} (mf : Except ε (α → β)) (ma : Except ε α) : Except ε β :=
  match mf with
  | .error e => .error e
  | .ok f =>
    match ma with
    | .error e => .error e
    | .ok a => .ok (f a)

/-- `E.flattenW` of fp-ts `Either`. -/
def exceptFlatten {ε α : Type} (mma : Except ε (Except ε α)) : Except ε α :=
  mma.bind id

/-- `Range<TValue>` from `src/src/common/range.ts`: optional lower and upper
bounds. -/
structure Range (V : Type) where
  min : Option V := none
  max : Option V := none

/-- `clamp` from `src/src/common/range.ts:69`: first lift the value to `min`
when `ord.compare(v, min ?? v) < 0`, then cap it at `max` when the comparison
with `max ?? v` is greater. `cmp` is the `Ord<T>.compare` argument. -/
def clamp {V : Type} (r : Range V) (cmp : V → V → Ordering) (v : V) : V :=
  let v1 := if cmp v (r.min.getD v) = .lt then r.min.getD v else v
  if cmp v1 (r.max.getD v1) = .gt then r.max.getD v1 else v1

/-- The comparison function induced by a linear order, as the `Ord` instances
supplied to `RangeT` and bound attributes are. -/
def cmpOf {V : Type} [LinearOrder V] : V → V → Ordering :=
  fun a b => compare a b

/-- The validation step of `RangeT` from `src/src/common/range.ts:24`: after
the raw structural decode (an io-ts combinator, external to the core) has
produced a `Range`, accept it exactly when `min` or `max` is absent or
`ord.compare(min, max) <= 0`; otherwise report the violation. -/
def RangeT.validate {V : Type} (cmp : V → V → Ordering) (r : Range V) :
    Except (List String) (Range V) :=
  match r.min, r.max with
  | some lo, some hi =>
    if cmp lo hi = .gt then
      .error ["The max value should be equal to or greater than the min value."]
    else
      .ok r
  | _, _ => .ok r

/-- Model of `@fp-ts/optic`'s `Optional<S, A>` as the attribute layer uses it:
`getOptic` and `setOptic` return `Either<[Error, S], _>`; the error half is a
message paired with the original subject. -/
structure POptional (S A : Type) where
  getOptic : S → Except (String × S) A
  setOptic : A → S → Except (String × S) S

/-- Sequential composition of optionals (`optic.compose(...)` /
`.at(...)`, `.key(...)` chaining): get through the outer focus, act on the
inner one, and write the result back through the outer focus. -/
def POptional.compose {S A B : Type} (f : POptional S A) (g : POptional A B) :
    POptional S B where
  getOptic s :=
    match f.getOptic s with
    | .error e => .error e
    | .ok a =>
      match g.getOptic a with
      | .error (msg, _) => .error (msg, s)
      | .ok b => .ok b
  setOptic b s :=
    match f.getOptic s with
    | .error e => .error e
    | .ok a =>
      match g.setOptic b a with
      | .error (msg, _) => .error (msg, s)
      | .ok a2 => f.setOptic a2 s

/-- The error union produced by the attribute layer
(`src/src/game/attribute/errors.ts`): each variant carries the `message`
field, `attributeAccess` keeps the underlying cause's message as `details`,
and `invalidAttribute` keeps the reported validation failures. -/
inductive AttrErr where
  | attributeAccess (message : String) (details : String)
  | invalidAttribute (message : String) (details : List String)
  | readOnlyAttribute (message : String)
deriving DecidableEq, Repr

/-- `UnknownActorError` from `src/src/game/actor/errors.ts`. -/
structure UnknownActorError where
  type : String
  message : String
deriving DecidableEq, Repr

/-- An untyped runtime value handed to `setRaw`/`modifyRaw` (`unknown` in the
source), with the stringification used by template literals. -/
inductive UValue where
  | str (s : String)
  | int (n : Int)
deriving DecidableEq, Repr

/-- `String(value)` as a template literal performs it. -/
def UValue.toStr : UValue → String
  | .str s => s
  | .int n => toString n

/-- `AbstractAttribute` from the attribute module (`src/unnamed/part_003`):
a name, the composed optic into the context, the io-ts decoder (modelled as
returning either the typed value or the reported failure strings), and the
`isUpdatable` policy (a constant by default, overridable per context). -/
structure AbstractAttribute (Ctx V : Type) where
  name : String
  optic : POptional Ctx V
  decoder : UValue → Except (List String) V
  isUpdatable : Ctx → Bool

namespace AbstractAttribute

variable {Ctx V : Type}

/-- `toAttributeError` (`part_003:187`): wrap an optic failure into an
`AttributeAccess` error naming the attribute. -/
def toAttributeError (a : AbstractAttribute Ctx V) (e : String × Ctx) : AttrErr :=
  .attributeAccess
    ("Failed to access attribute \"" ++ a.name ++ "\": " ++ e.1 ++ ".") e.1

/-- `checkUpdatable` (`part_003:177`): pass the context through when
`isUpdatable` holds for it, else a `ReadOnlyAttribute` error naming the
attribute. -/
def checkUpdatable (a : AbstractAttribute Ctx V) (context : Ctx) :
    Except AttrErr Ctx :=
  if a.isUpdatable context then .ok context
  else .error (.readOnlyAttribute
    ("Cannot modify a read-only attribute \"" ++ a.name ++ "\"."))

/-- `get` (`part_003:195`): the optic's get with failures mapped to
`AttributeAccess`. -/
def get (a : AbstractAttribute Ctx V) (context : Ctx) : Except AttrErr V :=
  (a.optic.getOptic context).mapError a.toAttributeError

/-- `validate` (`part_003:210`): run the decoder; on failure produce an
`InvalidAttribute` error whose message stringifies the value and names the
attribute and whose details are the reported failures. -/
def validate (a : AbstractAttribute Ctx V) (value : UValue) : Except AttrErr V :=
  match a.decoder value with
  | .ok v => .ok v
  | .error errs =>
    .error (.invalidAttribute
      ("Invalid value \"" ++ value.toStr ++ "\" specified for attribute \""
        ++ a.name ++ "\".") errs)

/-- `set` (`part_003:223`): structural write through the optic, failures
mapped to `AttributeAccess`, then `checkUpdatable` on the written context. -/
def set (a : AbstractAttribute Ctx V) (value : V) (context : Ctx) :
    Except AttrErr Ctx :=
  (((a.optic.setOptic value) context).mapError a.toAttributeError).bind
    a.checkUpdatable

/-- `setRaw` (`part_003:234`): validate the untyped value first, then `set`,
then (again) `checkUpdatable`. -/
def setRaw (a : AbstractAttribute Ctx V) (value : UValue) (context : Ctx) :
    Except AttrErr Ctx :=
  ((a.validate value).bind fun v => a.set v context).bind a.checkUpdatable

/-- `modify` (`part_003:245`): read, apply `f`, write. -/
def modify (a : AbstractAttribute Ctx V) (f : V → V) (context : Ctx) :
    Except AttrErr Ctx :=
  ((a.get context).map f).bind fun v => a.set v context

/-- `modifyRaw` (`part_003:256`): read, apply `f` (untyped result), validate,
write. -/
def modifyRaw (a : AbstractAttribute Ctx V) (f : V → UValue) (context : Ctx) :
    Except AttrErr Ctx :=
  (((a.get context).map f).bind a.validate).bind fun v => a.set v context

end AbstractAttribute

/-- `AbstractBoundAttribute` from `src/src/game/attribute/bound.ts`: the base
attribute together with the value order and the `getRange` policy (a constant
option by default, overridable per context). -/
structure BoundAttribute (Ctx V : Type) where
  attr : AbstractAttribute Ctx V
  ord : V → V → Ordering
  getRange : Ctx → Option (Range V)

namespace BoundAttribute

variable {Ctx V : Type}

/-- Overridden `get` (`bound.ts:91`): base get, then clamp the value with the
range for this context when one is present. -/
def get (b : BoundAttribute Ctx V) (context : Ctx) : Except AttrErr V :=
  (b.attr.get context).map fun v =>
    match b.getRange context with
    | some r => clamp r b.ord v
    | none => v

/-- Overridden `set` (`bound.ts:103`): clamp the candidate value with the
range evaluated on the incoming (pre-write) context, then the base set. -/
def set (b : BoundAttribute Ctx V) (value : V) (context : Ctx) :
    Except AttrErr Ctx :=
  let v :=
    match b.getRange context with
    | some r => clamp r b.ord value
    | none => value
  b.attr.set v context

end BoundAttribute

/-- Association-list lookup modelling `ReadonlyRecord` key access. -/
def assocLookup {α : Type} : List (String × α) → String → Option α
  | [], _ => none
  | (k, v) :: rest, key => if k = key then some v else assocLookup rest key

/-- Association-list in-place value replacement for an existing key. -/
def assocUpdate {α : Type} : List (String × α) → String → α → List (String × α)
  | [], _, _ => []
  | (k, v) :: rest, key, nv =>
    if k = key then (k, nv) :: rest else (k, v) :: assocUpdate rest key nv

/-- The `.key(id)` optional of `@fp-ts/optic` over a `ReadonlyRecord`: both
get and set fail when the key is absent. -/
def keyOptic {α : Type} (k : String) : POptional (List (String × α)) α where
  getOptic r :=
    match assocLookup r k with
    | some v => .ok v
    | none => .error ("Missing key " ++ k, r)
  setOptic v r :=
    match assocLookup r k with
    | some _ => .ok (assocUpdate r k v)
    | none => .error ("Missing key " ++ k, r)

/-- `ActorData` from the actor module (`src/unnamed/part_004`): an id and a
name (both validated strings). -/
structure ActorData where
  id : String
  name : String
deriving DecidableEq, Repr

/-- `ActorDataHolder` / `WorldData`: the world tree holding the actors
record. -/
structure WorldData where
  actors : List (String × ActorData)
deriving DecidableEq, Repr

/-- The `.at("actors")` lens of `AbstractActorHolder`'s
`Optic.id<TContext>().at("actors")`: a total field access. -/
def actorsOptic : POptional WorldData (List (String × ActorData)) where
  getOptic s := .ok s.actors
  setOptic v s := .ok { s with actors := v }

/-- `AbstractActorHolder` (`src/unnamed/part_004:141`): the abstract
`findByData` extension point each concrete holder supplies, deciding
whether/how to wrap a raw record into an accessor of type `A`. -/
structure ActorHolderM (A : Type) where
  findByData : ActorData → Option A

namespace ActorHolderM

variable {A : Type}

/-- `findById` (`part_004:173`): get through `actors`-then-`key(id)`, drop
the error into an `Option`, and chain `findByData`. -/
def findById (h : ActorHolderM A) (i : String) (context : WorldData) : Option A :=
  match (actorsOptic.compose (keyOptic i)).getOptic context with
  | .ok d => h.findByData d
  | .error _ => none

/-- `resolve` (`part_004:184`): `findById`, turning `none` into an
`UnknownActorError` whose message quotes the id. -/
def resolve (h : ActorHolderM A) (i : String) (context : WorldData) :
    Except UnknownActorError A :=
  match h.findById i context with
  | some a => .ok a
  | none =>
    .error
      { type := "UnknownActor"
        message := "Actor with the given id does not exist: \"" ++ i ++ "\"." }

end ActorHolderM

/-- The accumulated record a pipeline threads: the `context` field (the world
snapshot) plus the named bindings added so far (`rest`, grown one pair per
`bind`). `bind` names are fresh (`Exclude<N, keyof A>` in the source), so
`Object.assign` only ever appends and never touches `context`. -/
structure Acc (W ρ : Type) where
  context : W
  rest : ρ
deriving DecidableEq, Repr

/-- `Do` of the binder handed to a pipeline function
(`game.ts:108`): the initial success value carrying the current snapshot. -/
def gameDo {W ε : Type} (w : W) : Except ε (Acc W Unit) :=
  .ok ⟨w, ()⟩

/-- `BaseGame._bind` (`game.ts:86`): chain on the accumulated record, apply
`f` to it and to its `context`, and append the produced value under the new
name (modelled by pairing it onto `rest`). -/
def gameBind {W ρ β ε : Type} (f : Acc W ρ → W → Except ε β)
    (ma : Except ε (Acc W ρ)) : Except ε (Acc W (ρ × β)) :=
  ma.bind fun a =>
    ((ma.map f).bind fun f2 => f2 a.context).map fun v =>
      ⟨a.context, (a.rest, v)⟩

/-- `BaseGame._update` (`game.ts:97`): apply `f` to the accumulated record
and to its `context`, flatten, and replace the `context` field carried
forward with the produced snapshot. -/
def gameUpdate {W ρ ε : Type} (f : Acc W ρ → W → Except ε W)
    (ma : Except ε (Acc W ρ)) : Except ε (Acc W ρ) :=
  (exceptFlatten
      (exceptAp (exceptAp (Except.ok f) ma) (ma.map Acc.context))).bind
    fun context => ma.map fun a => { a with context := context }

/-- `BaseGame`'s single mutable cell: the stored snapshot. -/
structure BaseGame (W : Type) where
  world : W
deriving DecidableEq, Repr

/-- `BaseGame.update` (`game.ts:104`): evaluate the pipeline function once
against the current snapshot (its only access to the game is the `Do` built
from `world`; `bind`/`update` are the fixed combinators above); on a `Right`
result replace the stored cell with the result's `context`, otherwise leave
it untouched; return the result either way. -/
def BaseGame.update {W ρ ε : Type} (g : BaseGame W)
    (f : Except ε (Acc W Unit) → Except ε (Acc W ρ)) :
    BaseGame W × Except ε (Acc W ρ) :=
  let result := f (gameDo g.world)
  match result with
  | .ok t => ({ world := t.context }, result)
  | .error _ => (g, result)

/-! ### Concrete instances used to exercise the layer on real data -/

/-- Field lens `Optic.id<TData>().at("name")` over an actor record: a total
access. -/
def nameField : POptional ActorData String where
  getOptic d := .ok d.name
  setOptic v d := .ok { d with name := v }

/-- The `ActorNameT` decoder (`MinLengthString(1)` ∧ `MaxLengthString(20)`):
accepts strings of length 1 to 20. -/
def actorNameDecoder : UValue → Except (List String) String
  | .str s =>
    if 1 ≤ s.length ∧ s.length ≤ 20 then .ok s
    else .error ["Invalid value supplied to ActorName"]
  | .int _ => .error ["Invalid value supplied to ActorName"]

/-- The `name` attribute a `BaseActor` with the given id carries: the
`actors`-then-`key(id)` optional composed with the `name` field lens. -/
def nameAttributeOf (i : String) (updatable : Bool) :
    AbstractAttribute WorldData String where
  name := "name"
  optic := (actorsOptic.compose (keyOptic i)).compose nameField
  decoder := actorNameDecoder
  isUpdatable _ := updatable

/-- A one-actor world used as concrete input. -/
def sampleWorld : WorldData :=
  ⟨[("player", ⟨"player", "Anna"⟩)]⟩

/-- A record carrying an integer `age`, the owning data of a bound age
attribute as in the spec's end-to-end scenario B. -/
structure Person where
  age : Int
deriving DecidableEq, Repr

/-- Total field lens onto `age`. -/
def ageOptic : POptional Person Int where
  getOptic p := .ok p.age
  setOptic v p := .ok { p with age := v }

/-- An integer decoder (io-ts `T.Int`-like): accepts integer values only. -/
def intDecoder : UValue → Except (List String) Int
  | .int n => .ok n
  | .str _ => .error ["Invalid value supplied to Int"]

/-- A plain (always-updatable) integer `age` attribute. -/
def ageAttribute : AbstractAttribute Person Int where
  name := "age"
  optic := ageOptic
  decoder := intDecoder
  isUpdatable _ := true

/-- The bound age attribute of scenario B: constant range with `min = 18` and
no upper bound, ordered as integers. -/
def boundAge : BoundAttribute Person Int where
  attr := ageAttribute
  ord := cmpOf
  getRange _ := some { min := some 18 }

/-- An age attribute with a dynamic `isUpdatable` override: writable only
while the (current) age is below 50. -/
def cappedAge : AbstractAttribute Person Int where
  name := "age"
  optic := ageOptic
  decoder := intDecoder
  isUpdatable p := p.age < 50

/-- A holder whose `findByData` accepts every record, wrapping it as
itself. -/
def plainHolder : ActorHolderM ActorData where
  findByData d := some d

/-! ### Theorems settling the claims -/

/-- Claim C1: for every pipeline function `f` and stored snapshot,
`BaseGame.update f` leaves the stored snapshot untouched when `f`'s overall
result is an error, and replaces it with the final accumulated `context`
exactly when the result is a success. The embedding makes the single
conditional write explicit: `BaseGame.update` performs no other write, so no
intermediate pipeline state reaches the stored cell. -/
theorem BaseGame.update_atomic {W ρ ε : Type} (g : BaseGame W)
    (f : Except ε (Acc W Unit) → Except ε (Acc W ρ)) :
    (∀ e, f (gameDo g.world) = .error e → (g.update f).1 = g) ∧
    (∀ t, f (gameDo g.world) = .ok t → (g.update f).1 = ⟨t.context⟩) := by
  constructor
  · intro e h
    simp [BaseGame.update, h]
  · intro t h
    simp [BaseGame.update, h]

/-- Witness for C1: a failing pipeline leaves the snapshot `5` in place; a
successful one that updates the context to `7` stores `7`. -/
theorem BaseGame.update_atomic_witness :
    (BaseGame.update ⟨(5 : Int)⟩
      (fun _ => (Except.error () : Except Unit (Acc Int Unit)))).1 = ⟨5⟩ ∧
    (BaseGame.update ⟨(5 : Int)⟩
      (gameUpdate (ε := Unit) (fun _ w => Except.ok (w + 2)))).1 = ⟨7⟩ := by
  constructor
  · exact (BaseGame.update_atomic ⟨5⟩ _).1 () rfl
  · exact (BaseGame.update_atomic ⟨5⟩ _).2 ⟨7, ()⟩ rfl

/-- Claim C5: a successful `update` step replaces the `context` carried in
the accumulated record, so the next `update` step — and any `bind` after it —
is applied to the snapshot the first step produced, not the original one. -/
theorem gameUpdate_sequencing {W ε : Type} (w w1 : W)
    (f1 f2 : Acc W Unit → W → Except ε W)
    (h1 : f1 ⟨w, ()⟩ w = .ok w1) :
    (gameUpdate f1 (gameDo w) = .ok ⟨w1, ()⟩) ∧
    (gameUpdate f2 (gameUpdate f1 (gameDo w)) =
      (f2 ⟨w1, ()⟩ w1).map fun w2 => (⟨w2, ()⟩ : Acc W Unit)) ∧
    ∀ (β : Type) (gf : Acc W Unit → W → Except ε β),
      gameBind gf (gameUpdate f1 (gameDo w)) =
        (gf ⟨w1, ()⟩ w1).map fun v => (⟨w1, ((), v)⟩ : Acc W (Unit × β)) := by
  have key : gameUpdate f1 (gameDo w) = .ok ⟨w1, ()⟩ := by
    simp [gameUpdate, gameDo, exceptAp, exceptFlatten, Except.bind, Except.map, h1]
  refine ⟨key, ?_, ?_⟩
  · rw [key]
    cases h2 : f2 ⟨w1, ()⟩ w1 with
    | error e =>
      simp [gameUpdate, exceptAp, exceptFlatten, Except.bind, Except.map, h2]
    | ok w2 =>
      simp [gameUpdate, exceptAp, exceptFlatten, Except.bind, Except.map, h2]
  · intro β gf
    rw [key]
    cases h2 : gf ⟨w1, ()⟩ w1 with
    | error e => simp [gameBind, Except.bind, Except.map, h2]
    | ok v => simp [gameBind, Except.bind, Except.map, h2]

/-- Witness for C5: starting from snapshot `4`, a first update writes `5` and
a chained second update reads `5` (producing `50`), not the original `4`. -/
theorem gameUpdate_sequencing_witness :
    gameUpdate (ε := Unit) (fun _ w => Except.ok (w * 10))
        (gameUpdate (fun _ w => Except.ok (w + 1)) (gameDo (4 : Int))) =
      Except.ok ⟨50, ()⟩ := by
  have h := (gameUpdate_sequencing (W := Int) (ε := Unit) 4 5
    (fun _ w => Except.ok (w + 1)) (fun _ w => Except.ok (w * 10)) rfl).2.1
  simpa using h

/-- Claim C2: when the attribute's structural path does not resolve (the
optic's set fails), `set` returns an `AttributeAccess` error and never a
`ReadOnlyAttribute` error — the updatability policy is only consulted after a
successful structural write, so this holds even for a read-only attribute. -/
theorem AbstractAttribute.set_access_error_precedence {Ctx V : Type}
    (a : AbstractAttribute Ctx V) (v : V) (context : Ctx) (e : String × Ctx)
    (h : a.optic.setOptic v context = .error e) :
    (∃ msg d, a.set v context = .error (.attributeAccess msg d)) ∧
    ∀ m, a.set v context ≠ .error (.readOnlyAttribute m) := by
  have hset : a.set v context = .error (a.toAttributeError e) := by
    simp [AbstractAttribute.set, h, Except.mapError, Except.bind]
  constructor
  · exact ⟨_, _, by rw [hset]; rfl⟩
  · intro m hm
    rw [hset] at hm
    simp [AbstractAttribute.toAttributeError] at hm

/-- Witness for C2: a read-only `name` attribute focused on the missing actor
id `"ghost"` in the one-actor sample world. -/
theorem set_access_error_precedence_witness :
    (∃ msg d, (nameAttributeOf "ghost" false).set "Bob" sampleWorld =
      .error (.attributeAccess msg d)) ∧
    ∀ m, (nameAttributeOf "ghost" false).set "Bob" sampleWorld ≠
      .error (.readOnlyAttribute m) :=
  AbstractAttribute.set_access_error_precedence
    (nameAttributeOf "ghost" false) "Bob" sampleWorld
    ("Missing key ghost", sampleWorld) rfl

/-- Claim C9: when the structural write succeeds and produces `c2`, the
read-only check runs against the post-write context `c2`: `set` returns a
`ReadOnlyAttribute` error exactly when `isUpdatable c2` is `false`, and `c2`
otherwise. -/
theorem AbstractAttribute.set_checks_post_write {Ctx V : Type}
    (a : AbstractAttribute Ctx V) (v : V) (context c2 : Ctx)
    (h : a.optic.setOptic v context = .ok c2) :
    a.set v context =
      if a.isUpdatable c2 then .ok c2
      else .error (.readOnlyAttribute
        ("Cannot modify a read-only attribute \"" ++ a.name ++ "\".")) := by
  simp [AbstractAttribute.set, h, Except.mapError, Except.bind,
    AbstractAttribute.checkUpdatable]

/-- Witness for C9: the dynamically-guarded age attribute (writable only
while age < 50). Writing `60` to a person aged `10` is refused — the policy
observes the already-written value `60` — while writing `20` succeeds. -/
theorem set_checks_post_write_witness :
    cappedAge.set 60 ⟨10⟩ =
      .error (.readOnlyAttribute
        ("Cannot modify a read-only attribute \"" ++ cappedAge.name ++ "\".")) ∧
    cappedAge.set 20 ⟨10⟩ = .ok ⟨20⟩ := by
  constructor
  · have h := AbstractAttribute.set_checks_post_write cappedAge 60 ⟨10⟩ ⟨60⟩ rfl
    rw [if_neg (by decide)] at h
    exact h
  · have h := AbstractAttribute.set_checks_post_write cappedAge 20 ⟨10⟩ ⟨20⟩ rfl
    rw [if_pos (by decide)] at h
    exact h

/-- Claim C4: `setRaw` runs the decoder before any structural write; on
decode failure it returns an `InvalidAttribute` error whose message embeds
the stringified value and the attribute name and whose details carry the
reported validator failures, and on success it behaves exactly as `set` with
the decoded value (the extra trailing `checkUpdatable` of the source is
absorbed, since `set` already checked the same pure policy). -/
theorem AbstractAttribute.setRaw_validates_first {Ctx V : Type}
    (a : AbstractAttribute Ctx V) (value : UValue) (context : Ctx) :
    (∀ errs, a.decoder value = .error errs →
      a.setRaw value context =
        .error (.invalidAttribute
          ("Invalid value \"" ++ value.toStr ++ "\" specified for attribute \""
            ++ a.name ++ "\".") errs)) ∧
    ∀ x, a.decoder value = .ok x → a.setRaw value context = a.set x context := by
  constructor
  · intro errs herr
    simp [AbstractAttribute.setRaw, AbstractAttribute.validate, herr, Except.bind]
  · intro x hok
    have hraw : a.setRaw value context = (a.set x context).bind a.checkUpdatable := by
      simp [AbstractAttribute.setRaw, AbstractAttribute.validate, hok, Except.bind]
    rw [hraw]
    cases hset : a.optic.setOptic x context with
    | error e => simp [AbstractAttribute.set, hset, Except.mapError, Except.bind]
    | ok c2 =>
      cases hu : a.isUpdatable c2 with
      | false =>
        simp [AbstractAttribute.set, hset, Except.mapError, Except.bind,
          AbstractAttribute.checkUpdatable, hu]
      | true =>
        simp [AbstractAttribute.set, hset, Except.mapError, Except.bind,
          AbstractAttribute.checkUpdatable, hu]

/-- Witness for C4: `setRaw` of the non-integer string `"not-an-int"` on the
integer age attribute fails with the decoder's report in `details`, and
`setRaw` of a well-typed raw `20` coincides with `set 20`. -/
theorem setRaw_validates_first_witness :
    ageAttribute.setRaw (.str "not-an-int") ⟨14⟩ =
      .error (.invalidAttribute
        ("Invalid value \"" ++ (UValue.str "not-an-int").toStr
          ++ "\" specified for attribute \"" ++ ageAttribute.name ++ "\".")
        ["Invalid value supplied to Int"]) ∧
    ageAttribute.setRaw (.int 20) ⟨14⟩ = ageAttribute.set 20 ⟨14⟩ := by
  constructor
  · exact (AbstractAttribute.setRaw_validates_first ageAttribute _ _).1 _ rfl
  · exact (AbstractAttribute.setRaw_validates_first ageAttribute _ _).2 20 rfl

/-- Helper: closed form of `clamp` under the comparison of a linear order,
by cases on which bounds are present. -/
theorem clamp_cmpOf {V : Type} [LinearOrder V] (lo hi : Option V) (v : V) :
    clamp ⟨lo, hi⟩ cmpOf v =
      match lo, hi with
      | none, none => v
      | some l, none => if v < l then l else v
      | none, some h => if h < v then h else v
      | some l, some h =>
        if h < (if v < l then l else v) then h else (if v < l then l else v) := by
  rcases lo with _ | l <;> rcases hi with _ | h <;>
    simp only [clamp, cmpOf, Option.getD_none, Option.getD_some] <;>
    simp [compare_lt_iff_lt, compare_gt_iff_gt]

/-- Claim C10: `clamp` is idempotent for every range (either bound may be
absent), with the comparison drawn from the value's linear order. -/
theorem clamp_idempotent {V : Type} [LinearOrder V] (r : Range V) (v : V) :
    clamp r cmpOf (clamp r cmpOf v) = clamp r cmpOf v := by
  obtain ⟨lo, hi⟩ := r
  rcases lo with _ | l <;> rcases hi with _ | h <;>
    simp only [clamp_cmpOf] <;> split_ifs <;> simp_all

/-- Witness for C10 at a concrete range and value. -/
theorem clamp_idempotent_witness :
    clamp ⟨some 2, some 5⟩ cmpOf (clamp ⟨some 2, some 5⟩ cmpOf (9 : Int)) =
      clamp ⟨some 2, some 5⟩ cmpOf 9 :=
  clamp_idempotent ⟨some 2, some 5⟩ 9

/-- Claim C8: `RangeT`'s validation rejects a range with both bounds present
and `min > max`, and accepts ranges with `min ≤ max` or with either bound
absent. -/
theorem RangeT.validate_rejects_inverted {V : Type} [LinearOrder V] (lo hi : V) :
    (hi < lo → ∃ msgs, RangeT.validate cmpOf ⟨some lo, some hi⟩ = .error msgs) ∧
    (lo ≤ hi →
      RangeT.validate cmpOf ⟨some lo, some hi⟩ = .ok ⟨some lo, some hi⟩) ∧
    (∀ m : Option V, RangeT.validate cmpOf ⟨m, none⟩ = .ok ⟨m, none⟩) ∧
    (∀ m : Option V, RangeT.validate cmpOf ⟨none, m⟩ = .ok ⟨none, m⟩) := by
  refine ⟨?_, ?_, ?_, ?_⟩
  · intro hlt
    refine ⟨["The max value should be equal to or greater than the min value."], ?_⟩
    simp [RangeT.validate, cmpOf, compare_gt_iff_gt, hlt]
  · intro hle
    simp [RangeT.validate, cmpOf, compare_gt_iff_gt, not_lt_of_le hle]
  · intro m
    rcases m with _ | l <;> simp [RangeT.validate]
  · intro m
    rcases m with _ | h <;> simp [RangeT.validate]

/-- Witness for C8: the inverted integer range `min = 5, max = 3` is
rejected; `min = 3, max = 5` and the one-sided ranges are accepted. -/
theorem validate_rejects_inverted_witness :
    (∃ msgs, RangeT.validate cmpOf ⟨some (5 : Int), some 3⟩ = .error msgs) ∧
    RangeT.validate cmpOf ⟨some (3 : Int), some 5⟩ = .ok ⟨some 3, some 5⟩ ∧
    RangeT.validate cmpOf ⟨some (18 : Int), none⟩ = .ok ⟨some 18, none⟩ := by
  refine ⟨?_, ?_, ?_⟩
  · exact (RangeT.validate_rejects_inverted 5 3).1 (by decide)
  · exact (RangeT.validate_rejects_inverted 3 5).2.1 (by decide)
  · exact (RangeT.validate_rejects_inverted (18 : Int) 0).2.2.1 (some 18)

/-- Claim C3: on a bound attribute, `set` clamps the candidate value with the
range obtained from `getRange` on the pre-write context before the structural
write; concretely, on the bound age attribute with constant range
`min = 18`, `set 10` on a person aged 14 stores `18`. -/
theorem BoundAttribute.set_clamps_pre_write {Ctx V : Type}
    (b : BoundAttribute Ctx V) (value : V) (context : Ctx) :
    (b.set value context =
      b.attr.set
        (match b.getRange context with
         | some r => clamp r b.ord value
         | none => value) context) ∧
    boundAge.set 10 ⟨14⟩ = .ok ⟨18⟩ := by
  constructor
  · rfl
  · rfl

/-- Claim C7: `get` on a bound attribute first performs the base structural
get; when it succeeds with `v` and a range is present the result is `v`
clamped into the range by the attribute's order (below `min` becomes `min`,
above `max` becomes `max`, within — or with no range — unchanged). -/
theorem BoundAttribute.get_clamps {Ctx V : Type} [LinearOrder V]
    (b : BoundAttribute Ctx V) (context : Ctx) (v : V)
    (hord : b.ord = cmpOf) (hget : b.attr.get context = .ok v) :
    (b.getRange context = none → b.get context = .ok v) ∧
    ∀ r, b.getRange context = some r →
      (∀ lo hi, r.min = some lo → r.max = some hi → lo ≤ hi) →
      b.get context = .ok (clamp r b.ord v) ∧
      (∀ lo, r.min = some lo → v < lo → clamp r b.ord v = lo) ∧
      (∀ hi, r.max = some hi → hi < v → clamp r b.ord v = hi) ∧
      ((∀ lo, r.min = some lo → lo ≤ v) → (∀ hi, r.max = some hi → v ≤ hi) →
        clamp r b.ord v = v) := by
  constructor
  · intro h
    simp [BoundAttribute.get, hget, Except.map, h]
  · intro r hr hvalid
    refine ⟨?_, ?_, ?_, ?_⟩
    · simp [BoundAttribute.get, hget, Except.map, hr]
    · intro lo hlo hv
      rw [hord]
      obtain ⟨rmin, rmax⟩ := r
      simp only at hlo
      cases hlo
      rcases rmax with _ | hi
      · simp [clamp_cmpOf, hv]
      · have hlh : lo ≤ hi := hvalid lo hi rfl rfl
        simp [clamp_cmpOf, hv, not_lt_of_le hlh]
    · intro hi hhi hv
      rw [hord]
      obtain ⟨rmin, rmax⟩ := r
      simp only at hhi
      cases hhi
      rcases rmin with _ | lo
      · simp [clamp_cmpOf, hv]
      · have hlh : lo ≤ hi := hvalid lo hi rfl rfl
        have hvl : ¬ v < lo := not_lt_of_le (le_trans hlh (le_of_lt hv))
        simp [clamp_cmpOf, hv, hvl]
    · intro hmin hmax
      rw [hord]
      obtain ⟨rmin, rmax⟩ := r
      rcases rmin with _ | lo <;> rcases rmax with _ | hi
      · simp [clamp_cmpOf]
      · have hh : ¬ hi < v := not_lt_of_le (hmax hi rfl)
        simp [clamp_cmpOf, hh]
      · have hl : ¬ v < lo := not_lt_of_le (hmin lo rfl)
        simp [clamp_cmpOf, hl]
      · have hl : ¬ v < lo := not_lt_of_le (hmin lo rfl)
        have hh : ¬ hi < v := not_lt_of_le (hmax hi rfl)
        simp [clamp_cmpOf, hl, hh]

/-- Witness for C7: the bound age attribute at a person aged 14 reads the
clamped value, and clamping 14 into the range `min = 18` yields 18. -/
theorem get_clamps_witness :
    boundAge.get ⟨14⟩ = .ok (clamp ⟨some 18, none⟩ boundAge.ord 14) ∧
    clamp ⟨some 18, none⟩ boundAge.ord 14 = 18 := by
  have h := (BoundAttribute.get_clamps boundAge ⟨14⟩ 14 rfl rfl).2
    ⟨some 18, none⟩ rfl (fun lo hi _ hh => by cases hh)
  exact ⟨h.1, h.2.1 18 rfl (by decide)⟩

/-- Claim C6: `findById` returns `some accessor` exactly when the id resolves
in the `actors` record and `findByData` accepts the record, `none` otherwise
(its type admits no error value); `resolve` on an unresolvable id fails with
an `UnknownActorError` whose message quotes the id. -/
theorem ActorHolderM.findById_resolve {A : Type} (h : ActorHolderM A)
    (i : String) (context : WorldData) :
    (h.findById i context =
      match assocLookup context.actors i with
      | some d => h.findByData d
      | none => none) ∧
    (h.findById i context = none →
      h.resolve i context =
        .error ⟨"UnknownActor",
          "Actor with the given id does not exist: \"" ++ i ++ "\"."⟩) ∧
    ∀ a, h.findById i context = some a → h.resolve i context = .ok a := by
  refine ⟨?_, ?_, ?_⟩
  · cases hl : assocLookup context.actors i with
    | some d =>
      simp [ActorHolderM.findById, POptional.compose, actorsOptic, keyOptic, hl]
    | none =>
      simp [ActorHolderM.findById, POptional.compose, actorsOptic, keyOptic, hl]
  · intro hn
    simp [ActorHolderM.resolve, hn]
  · intro a ha
    simp [ActorHolderM.resolve, ha]

/-- Witness for C6: in the one-actor sample world, `findById` finds
`"player"` and returns `none` for `"ghost"`, while `resolve "ghost"` fails
with the id quoted in the message. -/
theorem findById_resolve_witness :
    plainHolder.findById "player" sampleWorld = some ⟨"player", "Anna"⟩ ∧
    plainHolder.findById "ghost" sampleWorld = none ∧
    plainHolder.resolve "ghost" sampleWorld =
      .error ⟨"UnknownActor",
        "Actor with the given id does not exist: \"" ++ "ghost" ++ "\"."⟩ := by
  refine ⟨rfl, rfl, ?_⟩
  exact (ActorHolderM.findById_resolve plainHolder "ghost" sampleWorld).2.1 rfl

end Opticat
